import Mathlib

/-!
Verification development for the harel SCXML front end (src/lib.rs):
a shallow embedding of its AST, grammar parser, validator and serializer,
together with theorems settling the specification claims.

The XML tokenizer (roxmltree) is an external collaborator: it is modelled
as an already-built element tree (`XmlElem`), exactly the read-only view
the source consumes (tag name, namespace, attributes, element children,
trimmed text).  All functions below are translated from src/lib.rs.
-/

namespace Harel

/-- Errors that can occur during SCXML parsing (enum ParseError). -/
inductive ParseError where
  | InvalidXml (msg : String)
  | MissingAttribute (name : String)
  | InvalidStructure (reason : String)
  | InvalidNamespace (expected : String)
deriving DecidableEq, Repr

/-- Errors that can occur during SCXML validation (enum ValidationError). -/
inductive ValidationError where
  | DuplicateId (id : String)
  | InvalidTarget (id : String)
  | CircularInitial
  | InvalidDatamodel (reason : String)
  | MissingElement (name : String)
deriving DecidableEq, Repr

/-- The fixed SCXML namespace URI (const SCXML_NS). -/
def SCXML_NS : String := "http://www.w3.org/2005/07/scxml"

/-- Enum Executable: executable content elements (nested inductive,
`If` and `Foreach` carry lists of executables). -/
inductive Executable where
  | Raise (event : String)
  | If (cond : String) (then_ : List Executable) (else_ : List Executable)
  | Foreach (array : String) (item : String) (index : Option String) (body : List Executable)
  | Send (event : String) (target : Option String)
  | Script (src : Option String) (content : Option String)
  | Assign (location : String) (expr : String)
  | Log (label : Option String) (expr : String)
  | Cancel (sendid : String)
  | Other (tag : String)
deriving Repr

/-- struct Transition. -/
structure Transition where
  event : Option String
  cond : Option String
  target : Option String
  type_ : Option String
  executables : List Executable
deriving Repr

/-- struct Data (a datamodel item). -/
structure Data where
  id : String
  expr : Option String
  src : Option String
  content : Option String
deriving DecidableEq, Repr

/-- struct Initial (an explicit initial-element child of a state). -/
structure Initial where
  id : Option String
  transition : Transition
deriving Repr

/-- struct History. -/
structure History where
  id : Option String
  type_ : String
  transition : Option Transition
deriving Repr

/-- struct Final. -/
structure Final where
  id : Option String
  onentry : List Executable
  onexit : List Executable
deriving Repr

/-- struct Param (child of invoke). -/
structure Param where
  name : String
  expr : Option String
  location : Option String
deriving DecidableEq, Repr

/-- struct Finalize (child of invoke). -/
structure Finalize where
  executables : List Executable
deriving Repr

/-- struct Content (child of invoke). -/
structure Content where
  expr : Option String
  content : Option String
deriving DecidableEq, Repr

/-- struct Invoke. -/
structure Invoke where
  type_ : String
  src : Option String
  id : Option String
  params : List Param
  finalize : Option Finalize
  content : Option Content
deriving Repr

mutual
/-- Enum StateLike: state-like elements. -/
inductive StateLike where
  | state : State → StateLike
  | parallel : Parallel → StateLike
  | final : Final → StateLike
  | history : History → StateLike

/-- struct State. -/
inductive State where
  | mk : (id : Option String) → (initial : Option String) →
      (initial_element : Option Initial) → (transitions : List Transition) →
      (onentry : List Executable) → (onexit : List Executable) →
      (children : List StateLike) → (invokes : List Invoke) → State

/-- struct Parallel. -/
inductive Parallel where
  | mk : (id : Option String) → (transitions : List Transition) →
      (onentry : List Executable) → (onexit : List Executable) →
      (children : List StateLike) → (invokes : List Invoke) → Parallel
end

def State.id : State → Option String
  | .mk i _ _ _ _ _ _ _ => i

def State.initial : State → Option String
  | .mk _ i _ _ _ _ _ _ => i

def State.initial_element : State → Option Initial
  | .mk _ _ ie _ _ _ _ _ => ie

def State.transitions : State → List Transition
  | .mk _ _ _ ts _ _ _ _ => ts

def State.onentry : State → List Executable
  | .mk _ _ _ _ oe _ _ _ => oe

def State.onexit : State → List Executable
  | .mk _ _ _ _ _ ox _ _ => ox

def State.children : State → List StateLike
  | .mk _ _ _ _ _ _ ch _ => ch

def State.invokes : State → List Invoke
  | .mk _ _ _ _ _ _ _ inv => inv

def Parallel.id : Parallel → Option String
  | .mk i _ _ _ _ _ => i

def Parallel.transitions : Parallel → List Transition
  | .mk _ ts _ _ _ _ => ts

def Parallel.onentry : Parallel → List Executable
  | .mk _ _ oe _ _ _ => oe

def Parallel.onexit : Parallel → List Executable
  | .mk _ _ _ ox _ _ => ox

def Parallel.children : Parallel → List StateLike
  | .mk _ _ _ _ ch _ => ch

def Parallel.invokes : Parallel → List Invoke
  | .mk _ _ _ _ _ inv => inv

/-- struct Scxml: the parsed document. -/
structure Scxml where
  version : String
  initial : Option String
  datamodel : Option String
  states : List StateLike
  datamodel_elements : List Data

/-- The read-only element-tree view the parser consumes (external
collaborator, cf. roxmltree::Node): tag name, namespace, attributes,
element children, trimmed text.  Only element children are kept, since
every loop in the source filters on `is_element`. -/
inductive XmlElem where
  | mk : (name : String) → (ns : Option String) →
      (attrs : List (String × String)) → (children : List XmlElem) →
      (text : Option String) → XmlElem

def XmlElem.name : XmlElem → String
  | .mk n _ _ _ _ => n

def XmlElem.ns : XmlElem → Option String
  | .mk _ n _ _ _ => n

def XmlElem.attrs : XmlElem → List (String × String)
  | .mk _ _ a _ _ => a

def XmlElem.children : XmlElem → List XmlElem
  | .mk _ _ _ c _ => c

def XmlElem.text : XmlElem → Option String
  | .mk _ _ _ _ t => t

/-- Attribute lookup, node.attribute(name), on the element tree. -/
def XmlElem.attribute (e : XmlElem) (key : String) : Option String :=
  (e.attrs.find? (fun p => p.1 = key)).map (fun p => p.2)

/-- struct ParseOptions. -/
structure ParseOptions where
  relaxed_namespace : Bool
deriving DecidableEq, Repr

/-- Attribute lookup on a raw attribute list (used where an element has
been destructured into its fields). -/
def attr_of (ats : List (String × String)) (key : String) : Option String :=
  (ats.find? (fun p => p.1 = key)).map (fun p => p.2)

theorem attribute_eq_attr_of (e : XmlElem) (key : String) :
    e.attribute key = attr_of e.attrs key := rfl

mutual
/-- fn parse_single_executable: dispatch on the tag name. -/
def parse_single_executable : XmlElem → Except ParseError Executable
  | .mk nm _ ats ch tx =>
    match nm with
    | "raise" => .ok (.Raise ((attr_of ats "event").getD ""))
    | "if" => do
        let (then_, else_) ← parse_if_children ch false
        .ok (.If ((attr_of ats "cond").getD "") then_ else_)
    | "foreach" => do
        let body ← parse_executables_list ch
        .ok (.Foreach ((attr_of ats "array").getD "") ((attr_of ats "item").getD "")
              (attr_of ats "index") body)
    | "send" => .ok (.Send ((attr_of ats "event").getD "") (attr_of ats "target"))
    | "script" => .ok (.Script (attr_of ats "src") tx)
    | "assign" => .ok (.Assign ((attr_of ats "location").getD "") ((attr_of ats "expr").getD ""))
    | "log" => .ok (.Log (attr_of ats "label") ((attr_of ats "expr").getD ""))
    | "cancel" => .ok (.Cancel ((attr_of ats "sendid").getD ""))
    | _ => .ok (.Other nm)

/-- The child loop of the `"if"` arm of fn parse_single_executable: each
`<else>` child flips the in_else flag and is itself skipped (`continue`). -/
def parse_if_children : List XmlElem → Bool → Except ParseError (List Executable × List Executable)
  | [], _ => .ok ([], [])
  | c :: rest, inElse =>
    if c.name = "else" then parse_if_children rest true
    else do
      let ex ← parse_single_executable c
      let (t, e) ← parse_if_children rest inElse
      .ok (if inElse then (t, ex :: e) else (ex :: t, e))

/-- fn parse_executables, as the loop over a list of element children. -/
def parse_executables_list : List XmlElem → Except ParseError (List Executable)
  | [] => .ok []
  | c :: rest => do
    let ex ← parse_single_executable c
    let execs ← parse_executables_list rest
    .ok (ex :: execs)
end

/-- fn parse_executables: parse each element child of the container. -/
def parse_executables (node : XmlElem) : Except ParseError (List Executable) :=
  parse_executables_list node.children

/-- fn parse_transition. -/
def parse_transition (node : XmlElem) : Except ParseError Transition := do
  let executables ← parse_executables node
  .ok { event := node.attribute "event", cond := node.attribute "cond",
        target := node.attribute "target", type_ := node.attribute "type",
        executables }

/-- The find-first-transition-child loop shared by fn parse_initial and
fn parse_history (both break at the first `<transition>` child). -/
def find_first_transition : List XmlElem → Option XmlElem
  | [] => none
  | c :: rest => if c.name = "transition" then some c else find_first_transition rest

/-- fn parse_initial: the first `<transition>` child is required. -/
def parse_initial (node : XmlElem) : Except ParseError Initial :=
  match find_first_transition node.children with
  | none => .error (.InvalidStructure "Initial must have a transition")
  | some c => do
      let tr ← parse_transition c
      .ok { id := node.attribute "id", transition := tr }

/-- fn parse_history: `type` defaults to "shallow"; the default transition
is the first `<transition>` child, if any. -/
def parse_history (node : XmlElem) : Except ParseError History :=
  match find_first_transition node.children with
  | none => .ok { id := node.attribute "id",
                  type_ := (node.attribute "type").getD "shallow", transition := none }
  | some c => do
      let tr ← parse_transition c
      .ok { id := node.attribute "id",
            type_ := (node.attribute "type").getD "shallow", transition := some tr }

/-- fn parse_param: `name` is required. -/
def parse_param (node : XmlElem) : Except ParseError Param :=
  match node.attribute "name" with
  | none => .error (.MissingAttribute "param name")
  | some name => .ok { name, expr := node.attribute "expr",
                       location := node.attribute "location" }

/-- fn parse_finalize. -/
def parse_finalize (node : XmlElem) : Except ParseError Finalize := do
  let executables ← parse_executables node
  .ok { executables }

/-- fn parse_content. -/
def parse_content (node : XmlElem) : Except ParseError Content :=
  .ok { expr := node.attribute "expr", content := node.text }

/-- The child loop of fn parse_invoke.  In the source, repeated
`<finalize>`/`<content>` children overwrite the earlier ones (assignment
semantics: the later child wins), which the `getD` combination mirrors. -/
def parse_invoke_children : List XmlElem →
    Except ParseError (List Param × Option Finalize × Option Content)
  | [] => .ok ([], none, none)
  | c :: rest =>
    match c.name with
    | "param" => do
        let p ← parse_param c
        let (ps, f, ct) ← parse_invoke_children rest
        .ok (p :: ps, f, ct)
    | "finalize" => do
        let f2 ← parse_finalize c
        let (ps, f, ct) ← parse_invoke_children rest
        .ok (ps, some (f.getD f2), ct)
    | "content" => do
        let ct2 ← parse_content c
        let (ps, f, ct) ← parse_invoke_children rest
        .ok (ps, f, some (ct.getD ct2))
    | _ => parse_invoke_children rest

/-- fn parse_invoke: `type` defaults to the empty string. -/
def parse_invoke (node : XmlElem) : Except ParseError Invoke := do
  let (params, finalize, content) ← parse_invoke_children node.children
  .ok { type_ := (node.attribute "type").getD "", src := node.attribute "src",
        id := node.attribute "id", params, finalize, content }

/-- The child loop of fn parse_datamodel: each `<data>` child needs an
`id`; other children are skipped. -/
def parse_datamodel_children : List XmlElem → Except ParseError (List Data)
  | [] => .ok []
  | c :: rest =>
    if c.name = "data" then
      match c.attribute "id" with
      | none => .error (.MissingAttribute "data id")
      | some id => do
          let ds ← parse_datamodel_children rest
          .ok ({ id, expr := c.attribute "expr", src := c.attribute "src",
                 content := c.text } :: ds)
    else parse_datamodel_children rest

/-- fn parse_datamodel. -/
def parse_datamodel (node : XmlElem) : Except ParseError (List Data) :=
  parse_datamodel_children node.children

/-- The child loop of fn parse_final (only onentry/onexit are read). -/
def parse_final_children : List XmlElem →
    Except ParseError (List Executable × List Executable)
  | [] => .ok ([], [])
  | c :: rest =>
    match c.name with
    | "onentry" => do
        let es ← parse_executables c
        let (oe, ox) ← parse_final_children rest
        .ok (es ++ oe, ox)
    | "onexit" => do
        let es ← parse_executables c
        let (oe, ox) ← parse_final_children rest
        .ok (oe, es ++ ox)
    | _ => parse_final_children rest

/-- fn parse_final. -/
def parse_final (node : XmlElem) : Except ParseError Final := do
  let (onentry, onexit) ← parse_final_children node.children
  .ok { id := node.attribute "id", onentry, onexit }

mutual
/-- fn parse_state. -/
def parse_state : XmlElem → Except ParseError State
  | .mk _ _ ats ch _ => do
    let (ie, ts, oe, ox, chs, invs) ← parse_state_children ch
    .ok (.mk (attr_of ats "id") (attr_of ats "initial") ie ts oe ox chs invs)

/-- The child loop of fn parse_state.  A repeated `<initial>` child
overwrites the earlier one (the later child wins), which the `getD`
combination mirrors; every `<initial>` child is still parsed, so an
earlier child's parse error propagates first. -/
def parse_state_children : List XmlElem →
    Except ParseError (Option Initial × List Transition × List Executable ×
      List Executable × List StateLike × List Invoke)
  | [] => .ok (none, [], [], [], [], [])
  | c :: rest =>
    match c.name with
    | "initial" => do
        let i ← parse_initial c
        let (ie, ts, oe, ox, chs, invs) ← parse_state_children rest
        .ok (some (ie.getD i), ts, oe, ox, chs, invs)
    | "transition" => do
        let t ← parse_transition c
        let (ie, ts, oe, ox, chs, invs) ← parse_state_children rest
        .ok (ie, t :: ts, oe, ox, chs, invs)
    | "onentry" => do
        let es ← parse_executables c
        let (ie, ts, oe, ox, chs, invs) ← parse_state_children rest
        .ok (ie, ts, es ++ oe, ox, chs, invs)
    | "onexit" => do
        let es ← parse_executables c
        let (ie, ts, oe, ox, chs, invs) ← parse_state_children rest
        .ok (ie, ts, oe, es ++ ox, chs, invs)
    | "state" => do
        let s ← parse_state c
        let (ie, ts, oe, ox, chs, invs) ← parse_state_children rest
        .ok (ie, ts, oe, ox, .state s :: chs, invs)
    | "parallel" => do
        let p ← parse_parallel c
        let (ie, ts, oe, ox, chs, invs) ← parse_state_children rest
        .ok (ie, ts, oe, ox, .parallel p :: chs, invs)
    | "final" => do
        let f ← parse_final c
        let (ie, ts, oe, ox, chs, invs) ← parse_state_children rest
        .ok (ie, ts, oe, ox, .final f :: chs, invs)
    | "history" => do
        let h ← parse_history c
        let (ie, ts, oe, ox, chs, invs) ← parse_state_children rest
        .ok (ie, ts, oe, ox, .history h :: chs, invs)
    | "invoke" => do
        let iv ← parse_invoke c
        let (ie, ts, oe, ox, chs, invs) ← parse_state_children rest
        .ok (ie, ts, oe, ox, chs, iv :: invs)
    | _ => parse_state_children rest

/-- fn parse_parallel. -/
def parse_parallel : XmlElem → Except ParseError Parallel
  | .mk _ _ ats ch _ => do
    let (ts, oe, ox, chs, invs) ← parse_parallel_children ch
    .ok (.mk (attr_of ats "id") ts oe ox chs invs)

/-- The child loop of fn parse_parallel. -/
def parse_parallel_children : List XmlElem →
    Except ParseError (List Transition × List Executable × List Executable ×
      List StateLike × List Invoke)
  | [] => .ok ([], [], [], [], [])
  | c :: rest =>
    match c.name with
    | "transition" => do
        let t ← parse_transition c
        let (ts, oe, ox, chs, invs) ← parse_parallel_children rest
        .ok (t :: ts, oe, ox, chs, invs)
    | "onentry" => do
        let es ← parse_executables c
        let (ts, oe, ox, chs, invs) ← parse_parallel_children rest
        .ok (ts, es ++ oe, ox, chs, invs)
    | "onexit" => do
        let es ← parse_executables c
        let (ts, oe, ox, chs, invs) ← parse_parallel_children rest
        .ok (ts, oe, es ++ ox, chs, invs)
    | "state" => do
        let s ← parse_state c
        let (ts, oe, ox, chs, invs) ← parse_parallel_children rest
        .ok (ts, oe, ox, .state s :: chs, invs)
    | "parallel" => do
        let p ← parse_parallel c
        let (ts, oe, ox, chs, invs) ← parse_parallel_children rest
        .ok (ts, oe, ox, .parallel p :: chs, invs)
    | "final" => do
        let f ← parse_final c
        let (ts, oe, ox, chs, invs) ← parse_parallel_children rest
        .ok (ts, oe, ox, .final f :: chs, invs)
    | "history" => do
        let h ← parse_history c
        let (ts, oe, ox, chs, invs) ← parse_parallel_children rest
        .ok (ts, oe, ox, .history h :: chs, invs)
    | "invoke" => do
        let iv ← parse_invoke c
        let (ts, oe, ox, chs, invs) ← parse_parallel_children rest
        .ok (ts, oe, ox, chs, iv :: invs)
    | _ => parse_parallel_children rest
end

/-- The child loop of fn parse_scxml_with_options over the root's element
children.  Repeated `<datamodel>` sections extend the same list. -/
def parse_root_children : List XmlElem → Except ParseError (List StateLike × List Data)
  | [] => .ok ([], [])
  | c :: rest =>
    match c.name with
    | "state" => do
        let s ← parse_state c
        let (sts, ds) ← parse_root_children rest
        .ok (.state s :: sts, ds)
    | "parallel" => do
        let p ← parse_parallel c
        let (sts, ds) ← parse_root_children rest
        .ok (.parallel p :: sts, ds)
    | "final" => do
        let f ← parse_final c
        let (sts, ds) ← parse_root_children rest
        .ok (.final f :: sts, ds)
    | "history" => do
        let h ← parse_history c
        let (sts, ds) ← parse_root_children rest
        .ok (.history h :: sts, ds)
    | "datamodel" => do
        let d ← parse_datamodel c
        let (sts, ds) ← parse_root_children rest
        .ok (sts, d ++ ds)
    | _ => parse_root_children rest

/-- fn parse_scxml_with_options, from the root element of the (externally
tokenized) document onward.  The source checks the namespace first (only
in strict mode), then the root tag name, then the version. -/
def parse_scxml_with_options (root : XmlElem) (options : ParseOptions) :
    Except ParseError Scxml :=
  if options.relaxed_namespace = false ∧ root.ns ≠ some SCXML_NS then
    .error (.InvalidNamespace SCXML_NS)
  else if root.name ≠ "scxml" then
    .error (.InvalidStructure "Root must be <scxml>")
  else
    match root.attribute "version" with
    | none => .error (.MissingAttribute "version")
    | some version =>
      if version ≠ "1.0" then
        .error (.InvalidStructure "SCXML version must be 1.0")
      else do
        let (states, datamodel_elements) ← parse_root_children root.children
        .ok { version, initial := root.attribute "initial",
              datamodel := root.attribute "datamodel", states, datamodel_elements }

/-- fn parse_scxml: default options (strict namespace). -/
def parse_scxml (root : XmlElem) : Except ParseError Scxml :=
  parse_scxml_with_options root { relaxed_namespace := false }

/-- Rust str::split_whitespace over the character list: maximal runs of
non-whitespace characters, in order (acc holds the current run,
reversed). -/
def split_whitespace_aux : List Char → List Char → List String
  | [], [] => []
  | [], acc => [String.mk acc.reverse]
  | c :: cs, acc =>
    if c.isWhitespace then
      match acc with
      | [] => split_whitespace_aux cs []
      | _ => String.mk acc.reverse :: split_whitespace_aux cs []
    else split_whitespace_aux cs (c :: acc)

/-- Rust str::split_whitespace: whitespace-separated tokens, no empties. -/
def split_whitespace (s : String) : List String :=
  split_whitespace_aux s.data []

/-- The per-id step of fn collect_state_ids: HashSet::insert fails with
DuplicateId when the id is already present (the set is modelled as a
list; absent ids are skipped). -/
def insert_id (id? : Option String) (ids : List String) :
    Except ValidationError (List String) :=
  match id? with
  | none => .ok ids
  | some id => if id ∈ ids then .error (.DuplicateId id) else .ok (id :: ids)

mutual
/-- The per-element body of the loop in fn collect_state_ids: insert the
id (if any), then recurse into the children of states and parallels. -/
def collect_state_ids_one : StateLike → List String → Except ValidationError (List String)
  | .state (.mk id _ _ _ _ _ ch _), ids => do
      let ids1 ← insert_id id ids
      collect_state_ids ch ids1
  | .parallel (.mk id _ _ _ ch _), ids => do
      let ids1 ← insert_id id ids
      collect_state_ids ch ids1
  | .final f, ids => insert_id f.id ids
  | .history h, ids => insert_id h.id ids

/-- fn collect_state_ids: pre-order depth-first collection of every
state-like id into one document-global set (modelled as a threaded
list), failing fast on the first duplicate. -/
def collect_state_ids : List StateLike → List String → Except ValidationError (List String)
  | [], ids => .ok ids
  | st :: rest, ids => do
      let ids1 ← collect_state_ids_one st ids
      collect_state_ids rest ids1
end

/-- The token loop of fn validate_transition_targets: each
whitespace-separated token of a target value must be a known id. -/
def check_tokens : List String → List String → Except ValidationError Unit
  | [], _ => .ok ()
  | t :: rest, ids =>
    if t ∈ ids then check_tokens rest ids else .error (.InvalidTarget t)

/-- The per-transition step of fn validate_transition_targets. -/
def check_transition (tr : Transition) (ids : List String) : Except ValidationError Unit :=
  match tr.target with
  | none => .ok ()
  | some tgt => check_tokens (split_whitespace tgt) ids

/-- The transition loop of fn validate_transition_targets. -/
def check_transitions : List Transition → List String → Except ValidationError Unit
  | [], _ => .ok ()
  | tr :: rest, ids => do
    check_transition tr ids
    check_transitions rest ids

mutual
/-- The per-element body of the loop in fn validate_transition_targets:
transitions on states and parallels (recursing into their children) and
the default transition on histories; the catch-all arm skips finals. -/
def validate_targets_one : StateLike → List String → Except ValidationError Unit
  | .state (.mk _ _ _ ts _ _ ch _), ids => do
      check_transitions ts ids
      validate_transition_targets ch ids
  | .parallel (.mk _ ts _ _ ch _), ids => do
      check_transitions ts ids
      validate_transition_targets ch ids
  | .history h, ids =>
      (match h.transition with
       | none => Except.ok ()
       | some tr => check_transition tr ids)
  | .final _, _ => .ok ()

/-- fn validate_transition_targets. -/
def validate_transition_targets : List StateLike → List String → Except ValidationError Unit
  | [], _ => .ok ()
  | st :: rest, ids => do
      validate_targets_one st ids
      validate_transition_targets rest ids
end

/-- The loop of fn validate_datamodel_constraints, with its own fresh id
set (scoped to the data section only). -/
def validate_datamodel_loop : List Data → List String → Except ValidationError Unit
  | [], _ => .ok ()
  | d :: rest, seen =>
    if d.id ∈ seen then .error (.DuplicateId d.id)
    else validate_datamodel_loop rest (d.id :: seen)

/-- fn validate_datamodel_constraints. -/
def validate_datamodel_constraints (data_elements : List Data) : Except ValidationError Unit :=
  validate_datamodel_loop data_elements []

/-- fn validate: id collection, transition-target resolution, root
initial-attribute resolution, datamodel uniqueness, in that order. -/
def validate (scxml : Scxml) : Except ValidationError Unit := do
  let all_ids ← collect_state_ids scxml.states []
  validate_transition_targets scxml.states all_ids
  (match scxml.initial with
   | some initial =>
       if initial ∈ all_ids then Except.ok () else .error (.InvalidTarget initial)
   | none => Except.ok ())
  validate_datamodel_constraints scxml.datamodel_elements

/-- Indentation, the repetition of four spaces indent_level times. -/
def indent_of (n : Nat) : String := String.join (List.replicate n "    ")

/-- fn serialize_executable: only Raise, Script, Assign and Log have
arms; every other variant falls to the catch-all comment. -/
def serialize_executable (executable : Executable) (indent_level : Nat) : String :=
  let indent := indent_of indent_level
  match executable with
  | .Raise event => indent ++ "<raise event=\"" ++ event ++ "\"/>\n"
  | .Script src content =>
      let s1 := indent ++ "<script"
      let s2 := match src with
        | some src => s1 ++ " src=\"" ++ src ++ "\""
        | none => s1
      (match content with
       | some content => s2 ++ ">" ++ content ++ "</script>\n"
       | none => s2 ++ "/>\n")
  | .Assign location expr =>
      indent ++ "<assign location=\"" ++ location ++ "\" expr=\"" ++ expr ++ "\"/>\n"
  | .Log label expr =>
      let s1 := indent ++ "<log"
      let s2 := match label with
        | some label => s1 ++ " label=\"" ++ label ++ "\""
        | none => s1
      s2 ++ " expr=\"" ++ expr ++ "\"/>\n"
  | _ => indent ++ "<!-- Unsupported executable -->\n"

/-- A loop of serialize_executable calls, concatenated in order. -/
def serialize_executable_list (l : List Executable) (indent_level : Nat) : String :=
  String.join (l.map (fun e => serialize_executable e indent_level))

/-- fn serialize_transition. -/
def serialize_transition (transition : Transition) (indent_level : Nat) : String :=
  let indent := indent_of indent_level
  let s := indent ++ "<transition"
  let s := match transition.event with
    | some event => s ++ " event=\"" ++ event ++ "\""
    | none => s
  let s := match transition.cond with
    | some cond => s ++ " cond=\"" ++ cond ++ "\""
    | none => s
  let s := match transition.target with
    | some target => s ++ " target=\"" ++ target ++ "\""
    | none => s
  let s := match transition.type_ with
    | some t => s ++ " type=\"" ++ t ++ "\""
    | none => s
  if transition.executables.isEmpty then s ++ "/>\n"
  else s ++ ">\n" ++ serialize_executable_list transition.executables (indent_level + 1)
         ++ indent ++ "</transition>\n"

/-- fn serialize_initial. -/
def serialize_initial (initial : Initial) (indent_level : Nat) : String :=
  let indent := indent_of indent_level
  let s := indent ++ "<initial"
  let s := match initial.id with
    | some id => s ++ " id=\"" ++ id ++ "\""
    | none => s
  s ++ ">\n" ++ serialize_transition initial.transition (indent_level + 1)
    ++ indent ++ "</initial>\n"

/-- The param loop inside fn serialize_invoke. -/
def serialize_invoke_param (param : Param) (indent : String) : String :=
  let s := indent ++ "    <param name=\"" ++ param.name ++ "\""
  let s := match param.expr with
    | some expr => s ++ " expr=\"" ++ expr ++ "\""
    | none => s
  let s := match param.location with
    | some location => s ++ " location=\"" ++ location ++ "\""
    | none => s
  s ++ "/>\n"

/-- fn serialize_invoke (finalize and content are left unserialized, as
in the source). -/
def serialize_invoke (invoke : Invoke) (indent_level : Nat) : String :=
  let indent := indent_of indent_level
  let s := indent ++ "<invoke type=\"" ++ invoke.type_ ++ "\""
  let s := match invoke.src with
    | some src => s ++ " src=\"" ++ src ++ "\""
    | none => s
  let s := match invoke.id with
    | some id => s ++ " id=\"" ++ id ++ "\""
    | none => s
  if invoke.params.isEmpty ∧ invoke.finalize.isNone ∧ invoke.content.isNone then
    s ++ "/>\n"
  else
    s ++ ">\n" ++ String.join (invoke.params.map (fun p => serialize_invoke_param p indent))
      ++ indent ++ "</invoke>\n"

mutual
/-- fn serialize_state_like.  The Parallel arm serializes only id and
children, the Final arm only the id, the History arm only id and type:
the remaining fields are dropped, exactly as in the source. -/
def serialize_state_like : StateLike → Nat → String
  | .state (.mk id initial ie ts oe ox ch invs), indent_level =>
    let indent := indent_of indent_level
    let s := indent ++ "<state"
    let s := match id with
      | some id => s ++ " id=\"" ++ id ++ "\""
      | none => s
    let s := match initial with
      | some initial => s ++ " initial=\"" ++ initial ++ "\""
      | none => s
    if ts.isEmpty ∧ oe.isEmpty ∧ ox.isEmpty ∧ ch.isEmpty ∧ invs.isEmpty ∧ ie.isNone then
      s ++ "/>\n"
    else
      let s := s ++ ">\n"
      let s := match ie with
        | some initial_elem => s ++ serialize_initial initial_elem (indent_level + 1)
        | none => s
      let s := if oe.isEmpty then s else
        s ++ indent ++ "    <onentry>\n"
          ++ serialize_executable_list oe (indent_level + 2)
          ++ indent ++ "    </onentry>\n"
      let s := s ++ serialize_state_list ch (indent_level + 1)
      let s := s ++ String.join (ts.map (fun t => serialize_transition t (indent_level + 1)))
      let s := if ox.isEmpty then s else
        s ++ indent ++ "    <onexit>\n"
          ++ serialize_executable_list ox (indent_level + 2)
          ++ indent ++ "    </onexit>\n"
      let s := s ++ String.join (invs.map (fun iv => serialize_invoke iv (indent_level + 1)))
      s ++ indent ++ "</state>\n"
  | .parallel (.mk id _ _ _ ch _), indent_level =>
    let indent := indent_of indent_level
    let s := indent ++ "<parallel"
    let s := match id with
      | some id => s ++ " id=\"" ++ id ++ "\""
      | none => s
    s ++ ">\n" ++ serialize_state_list ch (indent_level + 1) ++ indent ++ "</parallel>\n"
  | .final f, indent_level =>
    let indent := indent_of indent_level
    let s := indent ++ "<final"
    let s := match f.id with
      | some id => s ++ " id=\"" ++ id ++ "\""
      | none => s
    s ++ "/>\n"
  | .history h, indent_level =>
    let indent := indent_of indent_level
    let s := indent ++ "<history"
    let s := match h.id with
      | some id => s ++ " id=\"" ++ id ++ "\""
      | none => s
    s ++ " type=\"" ++ h.type_ ++ "\"" ++ "/>\n"

/-- The loop over top-level or child state-likes in the serializer. -/
def serialize_state_list : List StateLike → Nat → String
  | [], _ => ""
  | st :: rest, lvl => serialize_state_like st lvl ++ serialize_state_list rest lvl
end

/-- The inline data loop of fn to_xml. -/
def serialize_data (data : Data) : String :=
  let s := "        <data id=\"" ++ data.id ++ "\""
  let s := match data.expr with
    | some expr => s ++ " expr=\"" ++ expr ++ "\""
    | none => s
  let s := match data.src with
    | some src => s ++ " src=\"" ++ src ++ "\""
    | none => s
  match data.content with
  | some content => s ++ ">" ++ content ++ "</data>\n"
  | none => s ++ "/>\n"

/-- fn to_xml. -/
def to_xml (scxml : Scxml) : String :=
  let s := "<?xml version=\"1.0\" encoding=\"UTF-8\"?>\n"
  let s := s ++ "<scxml"
  let s := s ++ " xmlns=\"" ++ SCXML_NS ++ "\""
  let s := s ++ " version=\"" ++ scxml.version ++ "\""
  let s := match scxml.initial with
    | some initial => s ++ " initial=\"" ++ initial ++ "\""
    | none => s
  let s := match scxml.datamodel with
    | some datamodel => s ++ " datamodel=\"" ++ datamodel ++ "\""
    | none => s
  let s := s ++ ">\n"
  let s := if scxml.datamodel_elements.isEmpty then s else
    s ++ "    <datamodel>\n"
      ++ String.join (scxml.datamodel_elements.map serialize_data)
      ++ "    </datamodel>\n"
  let s := s ++ serialize_state_list scxml.states 1
  s ++ "</scxml>"

/-! ### Declarative views

The following definitions restate, in declarative list form, what the
validator's imperative traversals visit; they are the specification-side
counterparts the theorems compare the code against. -/

mutual
/-- The id of a state-like node followed by its descendants' ids, in the
pre-order the validator visits them. -/
def preorder_ids_one : StateLike → List String
  | .state (.mk id _ _ _ _ _ ch _) => id.toList ++ preorder_ids ch
  | .parallel (.mk id _ _ _ ch _) => id.toList ++ preorder_ids ch
  | .final f => f.id.toList
  | .history h => h.id.toList

/-- All state-like ids of a forest, in pre-order depth-first order. -/
def preorder_ids : List StateLike → List String
  | [] => []
  | st :: rest => preorder_ids_one st ++ preorder_ids rest
end

/-- The whitespace-split tokens of one transition's target (empty when
the target attribute is absent). -/
def transition_tokens (tr : Transition) : List String :=
  match tr.target with
  | none => []
  | some tgt => split_whitespace tgt

/-- Tokens of a transition list, in order. -/
def transitions_tokens : List Transition → List String
  | [] => []
  | tr :: rest => transition_tokens tr ++ transitions_tokens rest

mutual
/-- The target tokens fn validate_transition_targets checks for one
state-like node, in the order it checks them (state and parallel
transitions with their children, history default transitions; nothing
for finals). -/
def vt_tokens_one : StateLike → List String
  | .state (.mk _ _ _ ts _ _ ch _) => transitions_tokens ts ++ vt_tokens ch
  | .parallel (.mk _ ts _ _ ch _) => transitions_tokens ts ++ vt_tokens ch
  | .history h =>
      (match h.transition with
       | none => []
       | some tr => transition_tokens tr)
  | .final _ => []

/-- The target tokens the validator checks for a forest, in order. -/
def vt_tokens : List StateLike → List String
  | [] => []
  | st :: rest => vt_tokens_one st ++ vt_tokens rest
end

mutual
/-- Every transition-target token of the document's data model for one
node: like `vt_tokens_one` but also including the transition of an
explicit initial element (which the validator does not visit). -/
def doc_tokens_one : StateLike → List String
  | .state (.mk _ _ ie ts _ _ ch _) =>
      (match ie with
       | none => []
       | some i => transition_tokens i.transition)
        ++ transitions_tokens ts ++ doc_tokens ch
  | .parallel (.mk _ ts _ _ ch _) => transitions_tokens ts ++ doc_tokens ch
  | .history h =>
      (match h.transition with
       | none => []
       | some tr => transition_tokens tr)
  | .final _ => []

/-- Every transition-target token of a forest. -/
def doc_tokens : List StateLike → List String
  | [] => []
  | st :: rest => doc_tokens_one st ++ doc_tokens rest
end

/-- The first element of the list that already occurred earlier, given
the elements already seen. -/
def first_dup_from : List String → List String → Option String
  | [], _ => none
  | i :: rest, seen => if i ∈ seen then some i else first_dup_from rest (i :: seen)

/-- The first element of the list that occurs for the second time. -/
def first_dup (l : List String) : Option String := first_dup_from l []

/-- Flat-scan equivalent of the id-collection pass: insert each id in
order, failing on the first one already present. -/
def scan_ids : List String → List String → Except ValidationError (List String)
  | [], acc => .ok acc
  | i :: rest, acc =>
    if i ∈ acc then .error (.DuplicateId i) else scan_ids rest (i :: acc)

/-- The tokens of `l` that do not resolve in `ids`, in order. -/
def unresolved_tokens (l : List String) (ids : List String) : List String :=
  l.filter (fun t => decide (t ∉ ids))

/-- The element children strictly before the first else child. -/
def before_first_else (children : List XmlElem) : List XmlElem :=
  children.takeWhile (fun c => c.name != "else")

/-- The element children strictly after the first else child. -/
def after_first_else (children : List XmlElem) : List XmlElem :=
  (children.dropWhile (fun c => c.name != "else")).drop 1

/-! ### Helper lemmas -/

theorem except_ok_bind {ε α β : Type} (a : α) (f : α → Except ε β) :
    (Except.ok a >>= f) = f a := rfl

theorem except_error_bind {ε α β : Type} (e : ε) (f : α → Except ε β) :
    ((Except.error e : Except ε α) >>= f) = .error e := rfl

theorem scan_ids_append (l1 l2 : List String) (acc : List String) :
    scan_ids (l1 ++ l2) acc = (scan_ids l1 acc) >>= (fun acc1 => scan_ids l2 acc1) := by
  induction l1 generalizing acc with
  | nil => simp [scan_ids, except_ok_bind]
  | cons i rest ih =>
      simp only [List.cons_append, scan_ids]
      by_cases h : i ∈ acc
      · simp [h, except_error_bind]
      · simp [h, ih]

mutual
theorem collect_one_eq_scan (st : StateLike) (acc : List String) :
    collect_state_ids_one st acc = scan_ids (preorder_ids_one st) acc := by
  match st with
  | .state (.mk id _ _ _ _ _ ch _) =>
      match id with
      | none =>
          simp [collect_state_ids_one, preorder_ids_one, insert_id, Option.toList,
            except_ok_bind, collect_eq_scan ch acc]
      | some i =>
          by_cases h : i ∈ acc
          · simp [collect_state_ids_one, preorder_ids_one, insert_id, Option.toList,
              scan_ids, h, except_error_bind]
          · simp [collect_state_ids_one, preorder_ids_one, insert_id, Option.toList,
              scan_ids, h, except_ok_bind, collect_eq_scan ch (i :: acc)]
  | .parallel (.mk id _ _ _ ch _) =>
      match id with
      | none =>
          simp [collect_state_ids_one, preorder_ids_one, insert_id, Option.toList,
            except_ok_bind, collect_eq_scan ch acc]
      | some i =>
          by_cases h : i ∈ acc
          · simp [collect_state_ids_one, preorder_ids_one, insert_id, Option.toList,
              scan_ids, h, except_error_bind]
          · simp [collect_state_ids_one, preorder_ids_one, insert_id, Option.toList,
              scan_ids, h, except_ok_bind, collect_eq_scan ch (i :: acc)]
  | .final f =>
      match hf : f.id with
      | none => simp [collect_state_ids_one, preorder_ids_one, insert_id, hf, Option.toList, scan_ids]
      | some i =>
          by_cases h : i ∈ acc <;>
            simp [collect_state_ids_one, preorder_ids_one, insert_id, hf, Option.toList, scan_ids, h]
  | .history h =>
      match hh : h.id with
      | none => simp [collect_state_ids_one, preorder_ids_one, insert_id, hh, Option.toList, scan_ids]
      | some i =>
          by_cases hm : i ∈ acc <;>
            simp [collect_state_ids_one, preorder_ids_one, insert_id, hh, Option.toList, scan_ids, hm]

theorem collect_eq_scan (states : List StateLike) (acc : List String) :
    collect_state_ids states acc = scan_ids (preorder_ids states) acc := by
  match states with
  | [] => simp [collect_state_ids, preorder_ids, scan_ids]
  | st :: rest =>
      rw [collect_state_ids, preorder_ids, scan_ids_append, collect_one_eq_scan st acc]
      cases h : scan_ids (preorder_ids_one st) acc with
      | ok acc1 => simp [except_ok_bind, collect_eq_scan rest acc1]
      | error e => simp [except_error_bind]
end

theorem first_dup_from_eq_none_iff (l : List String) :
    ∀ seen, first_dup_from l seen = none ↔ l.Nodup ∧ ∀ i ∈ l, i ∉ seen := by
  induction l with
  | nil => intro seen; simp [first_dup_from]
  | cons i rest ih =>
      intro seen
      by_cases h : i ∈ seen
      · simp only [first_dup_from, if_pos h]
        simp only [List.nodup_cons, List.mem_cons]
        constructor
        · intro hc; exact absurd hc (by simp)
        · rintro ⟨-, hall⟩; exact absurd h (hall i (Or.inl rfl))
      · simp only [first_dup_from, if_neg h, ih (i :: seen)]
        constructor
        · rintro ⟨hnd, hall⟩
          refine ⟨List.nodup_cons.mpr ⟨fun hm => ?_, hnd⟩, ?_⟩
          · exact (hall i hm) (List.mem_cons_self i seen)
          · intro j hj
            rcases List.mem_cons.mp hj with rfl | hj'
            · exact h
            · intro hjs; exact (hall j hj') (List.mem_cons_of_mem i hjs)
        · rintro ⟨hnd, hall⟩
          obtain ⟨hir, hnd'⟩ := List.nodup_cons.mp hnd
          refine ⟨hnd', fun j hj hjs => ?_⟩
          rcases List.mem_cons.mp hjs with rfl | hjs'
          · exact hir hj
          · exact (hall j (List.mem_cons_of_mem i hj)) hjs'

theorem first_dup_eq_none_iff (l : List String) :
    first_dup l = none ↔ l.Nodup := by
  simp [first_dup, first_dup_from_eq_none_iff]

theorem scan_ids_error_of_first_dup (l : List String) :
    ∀ seen d, first_dup_from l seen = some d →
      scan_ids l seen = .error (.DuplicateId d) := by
  induction l with
  | nil => intro seen d h; simp [first_dup_from] at h
  | cons i rest ih =>
      intro seen d h
      by_cases hm : i ∈ seen
      · simp only [first_dup_from, if_pos hm, Option.some.injEq] at h
        subst h
        simp [scan_ids, hm]
      · simp only [first_dup_from, if_neg hm] at h
        simp [scan_ids, hm, ih (i :: seen) d h]

theorem scan_ids_ok_of_first_dup_none (l : List String) :
    ∀ seen, first_dup_from l seen = none →
      scan_ids l seen = .ok (l.reverse ++ seen) := by
  induction l with
  | nil => intro seen _; simp [scan_ids]
  | cons i rest ih =>
      intro seen h
      by_cases hm : i ∈ seen
      · simp [first_dup_from, hm] at h
      · simp only [first_dup_from, if_neg hm] at h
        simp [scan_ids, hm, ih (i :: seen) h]

theorem check_tokens_eq_match (l : List String) (ids : List String) :
    check_tokens l ids = (match unresolved_tokens l ids with
      | [] => Except.ok ()
      | t :: _ => Except.error (.InvalidTarget t)) := by
  induction l with
  | nil => simp [check_tokens, unresolved_tokens]
  | cons t rest ih =>
      by_cases h : t ∈ ids
      · simpa [check_tokens, unresolved_tokens, h] using ih
      · simp [check_tokens, unresolved_tokens, h]

theorem check_tokens_ok (l : List String) (ids : List String)
    (h : ∀ t ∈ l, t ∈ ids) : check_tokens l ids = .ok () := by
  rw [check_tokens_eq_match]
  have : unresolved_tokens l ids = [] := by
    simp only [unresolved_tokens, List.filter_eq_nil_iff]
    intro t ht
    simpa using h t ht
  simp [this]

theorem check_transition_eq (tr : Transition) (ids : List String) :
    check_transition tr ids = check_tokens (transition_tokens tr) ids := by
  cases h : tr.target <;> simp [check_transition, transition_tokens, h, check_tokens]

theorem check_tokens_append (l1 l2 : List String) (ids : List String) :
    check_tokens (l1 ++ l2) ids =
      (check_tokens l1 ids) >>= (fun _ => check_tokens l2 ids) := by
  induction l1 with
  | nil => simp [check_tokens, except_ok_bind]
  | cons t rest ih =>
      by_cases h : t ∈ ids
      · simp [check_tokens, h, ih]
      · simp [check_tokens, h, except_error_bind]

theorem check_transitions_eq (ts : List Transition) (ids : List String) :
    check_transitions ts ids = check_tokens (transitions_tokens ts) ids := by
  induction ts with
  | nil => simp [check_transitions, transitions_tokens, check_tokens]
  | cons tr rest ih =>
      rw [check_transitions, transitions_tokens, check_tokens_append, ← check_transition_eq]
      cases h : check_transition tr ids with
      | ok u => cases u; simp [except_ok_bind, ih]
      | error e => simp [except_error_bind]

mutual
theorem validate_targets_one_eq (st : StateLike) (ids : List String) :
    validate_targets_one st ids = check_tokens (vt_tokens_one st) ids := by
  match st with
  | .state (.mk _ _ _ ts _ _ ch _) =>
      rw [validate_targets_one, vt_tokens_one, check_tokens_append, ← check_transitions_eq]
      cases h : check_transitions ts ids with
      | ok u => cases u; simp [except_ok_bind, validate_targets_eq ch ids]
      | error e => simp [except_error_bind]
  | .parallel (.mk _ ts _ _ ch _) =>
      rw [validate_targets_one, vt_tokens_one, check_tokens_append, ← check_transitions_eq]
      cases h : check_transitions ts ids with
      | ok u => cases u; simp [except_ok_bind, validate_targets_eq ch ids]
      | error e => simp [except_error_bind]
  | .history h =>
      cases ht : h.transition with
      | none => simp [validate_targets_one, vt_tokens_one, ht, check_tokens]
      | some tr => simp [validate_targets_one, vt_tokens_one, ht, check_transition_eq]
  | .final f => simp [validate_targets_one, vt_tokens_one, check_tokens]

theorem validate_targets_eq (states : List StateLike) (ids : List String) :
    validate_transition_targets states ids = check_tokens (vt_tokens states) ids := by
  match states with
  | [] => simp [validate_transition_targets, vt_tokens, check_tokens]
  | st :: rest =>
      rw [validate_transition_targets, vt_tokens, check_tokens_append,
        ← validate_targets_one_eq st ids]
      cases h : validate_targets_one st ids with
      | ok u => cases u; simp [except_ok_bind, validate_targets_eq rest ids]
      | error e => simp [except_error_bind]
end

mutual
theorem vt_tokens_one_subset (st : StateLike) :
    ∀ x ∈ vt_tokens_one st, x ∈ doc_tokens_one st := by
  match st with
  | .state (.mk _ _ ie ts _ _ ch _) =>
      intro x hx
      rw [vt_tokens_one] at hx
      rcases List.mem_append.mp hx with h1 | h2
      · exact List.mem_append.mpr (Or.inl (List.mem_append.mpr (Or.inr h1)))
      · exact List.mem_append.mpr (Or.inr (vt_tokens_subset ch x h2))
  | .parallel (.mk _ ts _ _ ch _) =>
      intro x hx
      rw [vt_tokens_one] at hx
      rcases List.mem_append.mp hx with h1 | h2
      · exact List.mem_append.mpr (Or.inl h1)
      · exact List.mem_append.mpr (Or.inr (vt_tokens_subset ch x h2))
  | .history h =>
      intro x hx
      cases ht : h.transition <;>
        simp only [vt_tokens_one, doc_tokens_one, ht] at hx ⊢ <;> exact hx
  | .final f => intro x hx; rw [vt_tokens_one] at hx; exact absurd hx (List.not_mem_nil x)

theorem vt_tokens_subset (states : List StateLike) :
    ∀ x ∈ vt_tokens states, x ∈ doc_tokens states := by
  match states with
  | [] => intro x hx; rw [vt_tokens] at hx; exact absurd hx (List.not_mem_nil x)
  | st :: rest =>
      intro x hx
      rw [vt_tokens] at hx
      rcases List.mem_append.mp hx with h1 | h2
      · exact List.mem_append.mpr (Or.inl (vt_tokens_one_subset st x h1))
      · exact List.mem_append.mpr (Or.inr (vt_tokens_subset rest x h2))
end

theorem validate_datamodel_loop_eq (l : List Data) :
    ∀ seen, validate_datamodel_loop l seen =
      (match first_dup_from (l.map Data.id) seen with
       | none => Except.ok ()
       | some d => Except.error (.DuplicateId d)) := by
  induction l with
  | nil => intro seen; simp [validate_datamodel_loop, first_dup_from]
  | cons d rest ih =>
      intro seen
      by_cases h : d.id ∈ seen
      · simp [validate_datamodel_loop, first_dup_from, h]
      · simp [validate_datamodel_loop, first_dup_from, h, ih (d.id :: seen)]

theorem validate_datamodel_constraints_eq (l : List Data) :
    validate_datamodel_constraints l =
      (match first_dup (l.map Data.id) with
       | none => Except.ok ()
       | some d => Except.error (.DuplicateId d)) := by
  simp [validate_datamodel_constraints, first_dup, validate_datamodel_loop_eq]

/-! ### Lemmas for the if/else partition -/

theorem parse_if_children_true_eq (l : List XmlElem) :
    parse_if_children l true = (do
      let e ← parse_executables_list (l.filter (fun c => c.name != "else"))
      Except.ok (([] : List Executable), e)) := by
  induction l with
  | nil => rfl
  | cons c rest ih =>
      by_cases h : c.name = "else"
      · rw [parse_if_children, if_pos h, ih]
        simp [List.filter_cons, h]
      · have hb : (c.name != "else") = true := by simp [h]
        rw [parse_if_children, if_neg h]
        cases hex : parse_single_executable c with
        | error e =>
            simp [List.filter_cons, hb, parse_executables_list, hex, except_error_bind]
        | ok ex =>
            rw [ih]
            cases hrest : parse_executables_list (rest.filter (fun c => c.name != "else")) with
            | error e =>
                simp [List.filter_cons, hb, parse_executables_list, hex, hrest,
                  except_ok_bind, except_error_bind]
            | ok es =>
                simp [List.filter_cons, hb, parse_executables_list, hex, hrest, except_ok_bind]

theorem parse_if_children_false_eq (l : List XmlElem) :
    parse_if_children l false = (do
      let t ← parse_executables_list (before_first_else l)
      let e ← parse_executables_list
        ((after_first_else l).filter (fun c => c.name != "else"))
      Except.ok (t, e)) := by
  induction l with
  | nil => rfl
  | cons c rest ih =>
      by_cases h : c.name = "else"
      · have hb : (c.name != "else") = false := by simp [h]
        rw [parse_if_children, if_pos h, parse_if_children_true_eq]
        simp [before_first_else, after_first_else, List.takeWhile_cons, List.dropWhile_cons,
          hb, parse_executables_list, except_ok_bind]
      · have hb : (c.name != "else") = true := by simp [h]
        rw [parse_if_children, if_neg h]
        cases hex : parse_single_executable c with
        | error e =>
            simp [before_first_else, after_first_else, List.takeWhile_cons, List.dropWhile_cons,
              hb, parse_executables_list, hex, except_error_bind]
        | ok ex =>
            rw [ih]
            simp only [before_first_else, after_first_else, List.drop_one]
            cases hrest : parse_executables_list (rest.takeWhile (fun c => c.name != "else")) with
            | error e =>
                simp [List.takeWhile_cons, List.dropWhile_cons, hb, parse_executables_list,
                  hex, hrest, except_ok_bind, except_error_bind]
            | ok es =>
                cases hrest2 : parse_executables_list
                    (((rest.dropWhile (fun c => c.name != "else")).tail).filter
                      (fun c => c.name != "else")) with
                | error e =>
                    simp [List.takeWhile_cons, List.dropWhile_cons, hb, parse_executables_list,
                      hex, hrest, hrest2, except_ok_bind, except_error_bind]
                | ok es2 =>
                    simp [List.takeWhile_cons, List.dropWhile_cons, hb, parse_executables_list,
                      hex, hrest, hrest2, except_ok_bind]

/-! ### Lemma for the first-transition-child loop -/

theorem find_first_transition_append (pre : List XmlElem) (c : XmlElem) (post : List XmlElem)
    (hpre : ∀ x ∈ pre, x.name ≠ "transition") (hc : c.name = "transition") :
    find_first_transition (pre ++ c :: post) = some c := by
  induction pre with
  | nil => simp [find_first_transition, hc]
  | cons p rest ih =>
      have hp : p.name ≠ "transition" := hpre p (by simp)
      rw [List.cons_append, find_first_transition, if_neg hp]
      exact ih (fun x hx => hpre x (by simp [hx]))

/-! ### Concrete documents and element trees used as inputs -/

/-- A transition targeting the state "t". -/
def transition_to_t : Transition :=
  { event := none, cond := none, target := some "t", type_ := none, executables := [] }

/-- A document whose history state carries a default transition. -/
def history_doc_with_transition : Scxml :=
  { version := "1.0", initial := none, datamodel := none,
    states := [ .history { id := some "h", type_ := "shallow", transition := some transition_to_t },
                .state (.mk (some "t") none none [] [] [] [] []) ],
    datamodel_elements := [] }

/-- The same document with the history default transition removed. -/
def history_doc_without_transition : Scxml :=
  { version := "1.0", initial := none, datamodel := none,
    states := [ .history { id := some "h", type_ := "shallow", transition := none },
                .state (.mk (some "t") none none [] [] [] [] []) ],
    datamodel_elements := [] }

/-- C1: the claim's round trip is impossible for the code's serializer:
two structurally different valid documents in the contract's subset (one
history default transition present, one absent) serialize to the very
same text, so no re-parse can recover both. -/
theorem to_xml_drops_history_transition :
    validate history_doc_with_transition = .ok () ∧
    to_xml history_doc_with_transition = to_xml history_doc_without_transition ∧
    history_doc_with_transition ≠ history_doc_without_transition := by
  refine ⟨rfl, rfl, ?_⟩
  intro hcontra
  simp [history_doc_with_transition, history_doc_without_transition, transition_to_t] at hcontra

/-! ### C2 -/

/-- Root element with a dangling root initial attribute but unique ids
and no transitions at all. -/
def dangling_initial_tree : XmlElem :=
  .mk "scxml" (some SCXML_NS) [("version", "1.0"), ("initial", "nowhere")]
    [ .mk "state" none [("id", "a")] [] none ] none

/-- The document the parser produces for dangling_initial_tree. -/
def dangling_initial_doc : Scxml :=
  { version := "1.0", initial := some "nowhere", datamodel := none,
    states := [ .state (.mk (some "a") none none [] [] [] [] []) ],
    datamodel_elements := [] }

/-- C2 counterexample: this document parses, its state-like ids are
globally unique and every transition-target token (there are none)
resolves, yet validate fails, because the root initial attribute is
dangling — a case the claim's hypotheses do not exclude. -/
theorem validate_sound_counterexample :
    parse_scxml_with_options dangling_initial_tree { relaxed_namespace := false } =
      .ok dangling_initial_doc ∧
    (preorder_ids dangling_initial_doc.states).Nodup ∧
    doc_tokens dangling_initial_doc.states = [] ∧
    validate dangling_initial_doc = .error (.InvalidTarget "nowhere") := by
  refine ⟨rfl, by decide, rfl, rfl⟩

/-- C2 amended: soundness holds once the two checks the claim omitted
are added as hypotheses — the root initial attribute (if present) must
resolve and the datamodel ids must be pairwise distinct. -/
theorem validate_sound_amended (t : XmlElem) (opts : ParseOptions) (s : Scxml)
    (hp : parse_scxml_with_options t opts = .ok s)
    (hnodup : (preorder_ids s.states).Nodup)
    (htargets : ∀ tok ∈ doc_tokens s.states, tok ∈ preorder_ids s.states)
    (hinit : ∀ i, s.initial = some i → i ∈ preorder_ids s.states)
    (hdata : (s.datamodel_elements.map Data.id).Nodup) :
    validate s = .ok () := by
  have hfd : first_dup_from (preorder_ids s.states) [] = none := by
    rw [first_dup_from_eq_none_iff]
    exact ⟨hnodup, by simp⟩
  have hcol : collect_state_ids s.states [] = .ok ((preorder_ids s.states).reverse) := by
    rw [collect_eq_scan]
    simpa using scan_ids_ok_of_first_dup_none _ _ hfd
  have hvt : validate_transition_targets s.states ((preorder_ids s.states).reverse) = .ok () := by
    rw [validate_targets_eq]
    apply check_tokens_ok
    intro tok htok
    simpa using htargets tok (vt_tokens_subset _ tok htok)
  have hdm : validate_datamodel_constraints s.datamodel_elements = .ok () := by
    rw [validate_datamodel_constraints_eq, (first_dup_eq_none_iff _).mpr hdata]
  cases hin : s.initial with
  | none => simp [validate, hcol, except_ok_bind, hvt, hin, hdm]
  | some i =>
      have him : i ∈ (preorder_ids s.states).reverse := by
        simpa using hinit i hin
      simp [validate, hcol, except_ok_bind, hvt, hin, him, hdm]

/-- A well-formed document: state "start" with a transition to "end". -/
def well_formed_tree : XmlElem :=
  .mk "scxml" (some SCXML_NS) [("version", "1.0"), ("initial", "start")]
    [ .mk "state" none [("id", "start")]
        [ .mk "transition" none [("event", "go"), ("target", "end")] [] none ] none,
      .mk "final" none [("id", "end")] [] none ] none

/-- The document the parser produces for well_formed_tree. -/
def well_formed_doc : Scxml :=
  { version := "1.0", initial := some "start", datamodel := none,
    states := [ .state (.mk (some "start") none none
        [{ event := some "go", cond := none, target := some "end",
           type_ := none, executables := [] }] [] [] [] []),
      .final { id := some "end", onentry := [], onexit := [] } ],
    datamodel_elements := [] }

theorem validate_sound_amended_witness :
    validate well_formed_doc = .ok () := by
  exact validate_sound_amended well_formed_tree { relaxed_namespace := false }
    well_formed_doc rfl (by decide) (by decide) (by decide) (by decide)

/-! ### C3 -/

/-- Root with one state whose explicit initial element targets an
undeclared id. -/
def initial_element_tree : XmlElem :=
  .mk "scxml" (some SCXML_NS) [("version", "1.0")]
    [ .mk "state" none [("id", "a")]
        [ .mk "initial" none []
            [ .mk "transition" none [("target", "nowhere")] [] none ] none ] none ] none

/-- The transition of the initial element above. -/
def nowhere_transition : Transition :=
  { event := none, cond := none, target := some "nowhere", type_ := none, executables := [] }

/-- The document the parser produces for initial_element_tree. -/
def initial_element_doc : Scxml :=
  { version := "1.0", initial := none, datamodel := none,
    states := [ .state (.mk (some "a") none
        (some { id := none, transition := nowhere_transition }) [] [] [] [] []) ],
    datamodel_elements := [] }

/-- C3: the validator never resolves the target of an initial element's
transition: this document's only transition targets the undeclared id
"nowhere", yet validate succeeds. -/
theorem validate_skips_initial_element_target :
    parse_scxml_with_options initial_element_tree { relaxed_namespace := false } =
      .ok initial_element_doc ∧
    "nowhere" ∈ doc_tokens initial_element_doc.states ∧
    "nowhere" ∉ preorder_ids initial_element_doc.states ∧
    validate initial_element_doc = .ok () := by
  refine ⟨rfl, by decide, by decide, rfl⟩

/-! ### C4 -/

/-- C4: a document whose pre-order id list repeats any id anywhere makes
validate fail fast with DuplicateId of the first id seen a second time. -/
theorem validate_duplicate_id_global (s : Scxml)
    (hdup : ¬ (preorder_ids s.states).Nodup) :
    ∃ d, first_dup (preorder_ids s.states) = some d ∧
      validate s = .error (.DuplicateId d) := by
  obtain ⟨d, hd⟩ : ∃ d, first_dup (preorder_ids s.states) = some d := by
    cases hfd : first_dup (preorder_ids s.states) with
    | none => exact absurd ((first_dup_eq_none_iff _).mp hfd) hdup
    | some d => exact ⟨d, rfl⟩
  refine ⟨d, hd, ?_⟩
  have hcol : collect_state_ids s.states [] = .error (.DuplicateId d) := by
    rw [collect_eq_scan]
    exact scan_ids_error_of_first_dup _ _ _ hd
  simp [validate, hcol, except_error_bind]

/-- Two sibling states with the same id. -/
def sibling_dup_tree : XmlElem :=
  .mk "scxml" (some SCXML_NS) [("version", "1.0")]
    [ .mk "state" none [("id", "duplicate")] [] none,
      .mk "state" none [("id", "duplicate")] [] none ] none

/-- The document the parser produces for sibling_dup_tree. -/
def sibling_dup_doc : Scxml :=
  { version := "1.0", initial := none, datamodel := none,
    states := [ .state (.mk (some "duplicate") none none [] [] [] [] []),
                .state (.mk (some "duplicate") none none [] [] [] [] []) ],
    datamodel_elements := [] }

theorem validate_duplicate_id_global_witness :
    parse_scxml_with_options sibling_dup_tree { relaxed_namespace := false } =
      .ok sibling_dup_doc ∧
    validate sibling_dup_doc = .error (.DuplicateId "duplicate") := by
  refine ⟨rfl, ?_⟩
  obtain ⟨d, hd, hv⟩ := validate_duplicate_id_global sibling_dup_doc (by decide)
  have hd2 : first_dup (preorder_ids sibling_dup_doc.states) = some "duplicate" := by decide
  have hdd : d = "duplicate" := Option.some.inj (hd.symm.trans hd2)
  rw [hdd] at hv
  exact hv

/-! ### C5 -/

/-- C5: once id collection succeeds, the first target token (in the
validator's traversal order, after whitespace splitting) that does not
resolve in the id set determines the outcome: validate fails with
InvalidTarget of exactly that token. -/
theorem validate_multi_target_first_unresolved (s : Scxml) (all_ids : List String)
    (tok : String) (toks : List String)
    (hc : collect_state_ids s.states [] = .ok all_ids)
    (hu : unresolved_tokens (vt_tokens s.states) all_ids = tok :: toks) :
    validate s = .error (.InvalidTarget tok) := by
  have hvt : validate_transition_targets s.states all_ids =
      .error (.InvalidTarget tok) := by
    rw [validate_targets_eq, check_tokens_eq_match, hu]
  simp [validate, hc, except_ok_bind, hvt, except_error_bind]

/-- A document with a two-token target "r1 r2" where only r1 resolves. -/
def multi_target_doc : Scxml :=
  { version := "1.0", initial := none, datamodel := none,
    states := [ .state (.mk (some "a") none none
        [{ event := none, cond := none, target := some "r1 r2",
           type_ := none, executables := [] }] [] [] [] []),
      .state (.mk (some "r1") none none [] [] [] [] []) ],
    datamodel_elements := [] }

theorem validate_multi_target_first_unresolved_witness :
    collect_state_ids multi_target_doc.states [] = .ok ["r1", "a"] ∧
    unresolved_tokens (vt_tokens multi_target_doc.states) ["r1", "a"] = ["r2"] ∧
    validate multi_target_doc = .error (.InvalidTarget "r2") := by
  exact ⟨rfl, by decide,
    validate_multi_target_first_unresolved multi_target_doc ["r1", "a"] "r2" [] rfl (by decide)⟩

/-! ### C6 -/

/-- A root element that is not scxml, with no namespace. -/
def foo_root : XmlElem := .mk "foo" none [] [] none

/-- C6 counterexample: in strict mode the namespace check runs first, so
a non-scxml root without the SCXML namespace fails with InvalidNamespace,
not InvalidStructure. -/
theorem parse_root_tag_counterexample :
    foo_root.name ≠ "scxml" ∧
    parse_scxml_with_options foo_root { relaxed_namespace := false } =
      .error (.InvalidNamespace SCXML_NS) ∧
    ParseError.InvalidNamespace SCXML_NS ≠
      ParseError.InvalidStructure "Root must be <scxml>" := by
  refine ⟨by decide, rfl, by decide⟩

/-- C6 amended: a non-scxml root always fails to parse; the error is
InvalidStructure except when strict mode rejects the namespace first, in
which case it is InvalidNamespace. -/
theorem parse_root_tag_amended (t : XmlElem) (opts : ParseOptions)
    (h : t.name ≠ "scxml") :
    parse_scxml_with_options t opts =
      .error (if opts.relaxed_namespace = false ∧ t.ns ≠ some SCXML_NS
              then .InvalidNamespace SCXML_NS
              else .InvalidStructure "Root must be <scxml>") := by
  by_cases hcond : opts.relaxed_namespace = false ∧ t.ns ≠ some SCXML_NS
  · simp [parse_scxml_with_options, hcond]
  · simp [parse_scxml_with_options, hcond, h]

theorem parse_root_tag_amended_witness :
    parse_scxml_with_options foo_root { relaxed_namespace := true } =
      .error (.InvalidStructure "Root must be <scxml>") := by
  exact parse_root_tag_amended foo_root { relaxed_namespace := true } (by decide)

/-! ### C7 -/

/-- Replace the namespace of an element (everything else unchanged). -/
def XmlElem.with_ns : XmlElem → Option String → XmlElem
  | .mk n _ a c t, nsv => .mk n nsv a c t

/-- C7: strict mode rejects a root whose namespace is absent or not the
SCXML URI with InvalidNamespace; relaxed mode never looks at the root
namespace, so the parse result is invariant under changing it. -/
theorem parse_namespace_strictness :
    (∀ t : XmlElem, t.ns ≠ some SCXML_NS →
        parse_scxml_with_options t { relaxed_namespace := false } =
          .error (.InvalidNamespace SCXML_NS)) ∧
    (∀ (t : XmlElem) (nsv : Option String),
        parse_scxml_with_options (t.with_ns nsv) { relaxed_namespace := true } =
          parse_scxml_with_options t { relaxed_namespace := true }) := by
  constructor
  · intro t h
    simp [parse_scxml_with_options, h]
  · intro t nsv
    cases t
    rfl

/-- A root with a missing namespace, and one with a wrong namespace. -/
def plain_scxml_root : XmlElem := .mk "scxml" none [("version", "1.0")] [] none

theorem parse_namespace_strictness_witness :
    parse_scxml_with_options plain_scxml_root { relaxed_namespace := false } =
      .error (.InvalidNamespace SCXML_NS) ∧
    parse_scxml_with_options (plain_scxml_root.with_ns (some "http://wrong.namespace"))
        { relaxed_namespace := true } =
      parse_scxml_with_options plain_scxml_root { relaxed_namespace := true } := by
  exact ⟨parse_namespace_strictness.1 plain_scxml_root (by decide),
    parse_namespace_strictness.2 plain_scxml_root (some "http://wrong.namespace")⟩

/-! ### C8 -/

/-- C8: once the state-tree checks and the root initial check pass, the
outcome of validate depends only on duplication inside the datamodel
section itself — data ids are never compared against state ids, and the
first repeated data id yields DuplicateId. -/
theorem validate_datamodel_scoping (s : Scxml) (all_ids : List String)
    (hc : collect_state_ids s.states [] = .ok all_ids)
    (ht : validate_transition_targets s.states all_ids = .ok ())
    (hi : ∀ i, s.initial = some i → i ∈ all_ids) :
    validate s = (match first_dup (s.datamodel_elements.map Data.id) with
      | none => Except.ok ()
      | some d => Except.error (.DuplicateId d)) := by
  cases hin : s.initial with
  | none =>
      simp [validate, hc, except_ok_bind, ht, hin, validate_datamodel_constraints_eq]
  | some i =>
      have him := hi i hin
      simp [validate, hc, except_ok_bind, ht, hin, him, validate_datamodel_constraints_eq]

/-- A document in which a data id coincides with the state id "x". -/
def data_state_clash_doc : Scxml :=
  { version := "1.0", initial := none, datamodel := none,
    states := [ .state (.mk (some "x") none none [] [] [] [] []) ],
    datamodel_elements := [ { id := "x", expr := none, src := none, content := none } ] }

/-- A document whose datamodel section repeats the id "y". -/
def data_dup_doc : Scxml :=
  { version := "1.0", initial := none, datamodel := none,
    states := [ .state (.mk (some "x") none none [] [] [] [] []) ],
    datamodel_elements := [ { id := "y", expr := none, src := none, content := none },
                            { id := "y", expr := none, src := none, content := none } ] }

theorem validate_datamodel_scoping_witness :
    validate data_state_clash_doc = .ok () ∧
    validate data_dup_doc = .error (.DuplicateId "y") := by
  constructor
  · exact validate_datamodel_scoping data_state_clash_doc ["x"] rfl rfl
      (by intro i h; simp [data_state_clash_doc] at h)
  · exact validate_datamodel_scoping data_dup_doc ["x"] rfl rfl
      (by intro i h; simp [data_dup_doc] at h)

/-! ### C9 -/

/-- An if element with two else markers:
if(c) [ raise a, else, raise b, else, raise d ]. -/
def double_else_if : XmlElem :=
  .mk "if" none [("cond", "c")]
    [ .mk "raise" none [("event", "a")] [] none,
      .mk "else" none [] [] none,
      .mk "raise" none [("event", "b")] [] none,
      .mk "else" none [] [] none,
      .mk "raise" none [("event", "d")] [] none ] none

/-- C9 counterexample: the claim predicts the else branch holds the
executables parsed from ALL children after the first else, but a second
else child is silently consumed as a marker rather than parsed, so the
parsed else branch differs from the claim's prediction. -/
theorem if_partition_counterexample :
    parse_single_executable double_else_if =
      .ok (.If "c" [.Raise "a"] [.Raise "b", .Raise "d"]) ∧
    parse_executables_list (after_first_else double_else_if.children) =
      .ok [.Raise "b", .Other "else", .Raise "d"] ∧
    ([Executable.Raise "b", .Other "else", .Raise "d"] ≠
      [Executable.Raise "b", .Raise "d"]) := by
  refine ⟨rfl, rfl, by simp⟩

/-- C9 amended: then holds the executables parsed from the children
strictly before the first else child, and the else branch those parsed
from the non-else children after it — every else child (not only the
first) is a discarded marker. -/
theorem if_partition_amended (n : XmlElem) (h : n.name = "if") :
    parse_single_executable n = (do
      let then_ ← parse_executables_list (before_first_else n.children)
      let else_ ← parse_executables_list
        ((after_first_else n.children).filter (fun c => c.name != "else"))
      Except.ok (.If ((n.attribute "cond").getD "") then_ else_)) := by
  match n with
  | .mk nm nsv ats ch tx =>
    have hnm : nm = "if" := h
    subst hnm
    have step : parse_single_executable (.mk "if" nsv ats ch tx) = (do
        let (t, e) ← parse_if_children ch false
        Except.ok (.If ((attr_of ats "cond").getD "") t e)) := rfl
    rw [step, parse_if_children_false_eq]
    simp only [XmlElem.children, XmlElem.attribute, XmlElem.attrs, attr_of]
    rcases h1 : parse_executables_list (before_first_else ch) with e | t1
    · simp [h1, except_error_bind]
    · rcases h2 : parse_executables_list
          ((after_first_else ch).filter (fun c => c.name != "else")) with e | t2
      · simp [h1, h2, except_ok_bind, except_error_bind]
      · simp [h1, h2, except_ok_bind]

/-- The spec's canonical example: if(c) [ raise a, else, raise b ]. -/
def single_else_if : XmlElem :=
  .mk "if" none [("cond", "c")]
    [ .mk "raise" none [("event", "a")] [] none,
      .mk "else" none [] [] none,
      .mk "raise" none [("event", "b")] [] none ] none

theorem if_partition_amended_witness :
    parse_single_executable single_else_if =
      .ok (.If "c" [.Raise "a"] [.Raise "b"]) := by
  have h := if_partition_amended single_else_if rfl
  exact h

/-! ### C10 -/

/-- C10: parse_initial and parse_history look only at the first
transition child: any decomposition children = pre ++ c :: post with c
the first transition child fully determines the result, so every later
transition child (in post) is silently discarded. -/
theorem parse_initial_history_first_transition (n c : XmlElem)
    (pre post : List XmlElem)
    (hch : n.children = pre ++ c :: post)
    (hpre : ∀ x ∈ pre, x.name ≠ "transition")
    (hc : c.name = "transition") :
    parse_initial n = (parse_transition c).map
        (fun tr => { id := n.attribute "id", transition := tr }) ∧
    parse_history n = (parse_transition c).map
        (fun tr => { id := n.attribute "id",
                     type_ := (n.attribute "type").getD "shallow",
                     transition := some tr }) := by
  have hfind : find_first_transition n.children = some c := by
    rw [hch]
    exact find_first_transition_append pre c post hpre hc
  constructor
  · rw [parse_initial, hfind]
    cases ht : parse_transition c <;>
      simp [Except.map, ht, except_ok_bind, except_error_bind]
  · rw [parse_history, hfind]
    cases ht : parse_transition c <;>
      simp [Except.map, ht, except_ok_bind, except_error_bind]

/-- An element with two transition children (targets "x" and "y"). -/
def two_transition_elem : XmlElem :=
  .mk "initial" none []
    [ .mk "transition" none [("target", "x")] [] none,
      .mk "transition" none [("target", "y")] [] none ] none

/-- The parsed form of the first transition child above. -/
def transition_to_x : Transition :=
  { event := none, cond := none, target := some "x", type_ := none, executables := [] }

theorem parse_initial_history_first_transition_witness :
    parse_initial two_transition_elem =
      .ok { id := none, transition := transition_to_x } ∧
    parse_history two_transition_elem =
      .ok { id := none, type_ := "shallow", transition := some transition_to_x } := by
  have h := parse_initial_history_first_transition two_transition_elem
    (.mk "transition" none [("target", "x")] [] none) []
    [.mk "transition" none [("target", "y")] [] none] rfl (by simp) rfl
  exact h

end Harel
